import Mathlib

/-
  Verification of the result-consumption layer of mysql-connector-cpp
  (include/mysqlx/devapi/result.h).

  The public facade classes (Result, RowResult, SqlResult, DocResult) are in
  the source; every public method wraps a call into the detail layer
  (Result_detail, Row_result_detail, Doc_result_detail) in a try/CATCH_AND_WRAP
  block.  The detail layer itself is not part of the given sources, so its
  behaviour is modelled from the specification (sections 3, 4.3, 4.4, 7 and 8
  of spec.md); each such definition carries a doc comment saying so.
-/

namespace MysqlxResult

/-- Error taxonomy of the facade layer (spec section 7): OutOfRange,
InvalidState, ProtocolInconsistency and Propagated. -/
inductive Err where
  | outOfRange
  | invalidState
  | protocolInconsistency
  | propagated
deriving DecidableEq, Repr

/-- A row is an opaque ordered sequence of field values; field contents are
not interpreted by this layer, so fields are modelled as natural numbers. -/
abbrev Row := List Nat

/-- A warning record: severity level, numeric code, message text
(spec section 3). -/
structure Warning where
  level : Nat
  code : Nat
  msg : String
deriving DecidableEq, Repr

/-- Modelled from the spec: one result of a multi-result sequence as held by
the detail layer (detail/result.h is not among the given sources).  It carries
a flag saying whether the result has row data (`has_data` of Result_detail),
the rows not yet delivered to the caller (in server-emitted order), and the
fixed column count of the result. -/
structure ResData where
  hasData : Bool
  rows : List Row
  colCount : Nat
deriving DecidableEq, Repr

/-- Modelled from the spec: the state owned by a Result facade object.  The
head of `results` is the current result of the multi-result sequence; a
default-constructed Result owns no results at all.  Outcome scalars
(affected-item count, optional auto-increment value, generated document ids)
and the warning store are per spec sections 3 and 4.4. -/
structure ResultState where
  results : List ResData
  warnings : List Warning
  affected : Nat
  autoInc : Option Nat
  docIds : List String
deriving DecidableEq, Repr

/-- The state of a default-constructed Result: no pending data, zero
warnings, zero affected items (spec section 3). -/
def ResultState.empty : ResultState :=
  { results := [], warnings := [], affected := 0, autoInc := none, docIds := [] }

/-- The rows of the current result that have not yet been delivered. -/
def currentRows (s : ResultState) : List Row :=
  match s.results with
  | [] => []
  | r :: _ => r.rows

/-- Result_common::getWarningCount: number of warnings stored in the result. -/
def getWarningCount (s : ResultState) : Nat :=
  s.warnings.length

/-- Result_common::getWarnings: the list of stored warnings. -/
def getWarnings (s : ResultState) : List Warning :=
  s.warnings

/-- Result_common::getWarning: warning at a 0-based position; out-of-bounds
positions are reported as OutOfRange (spec section 4.1). -/
def getWarning (s : ResultState) (pos : Nat) : Except Err Warning :=
  if h : pos < s.warnings.length then
    .ok (s.warnings.get ⟨pos, h⟩)
  else
    .error .outOfRange

/-- Result::getAffectedItemsCount: count of affected items. -/
def getAffectedItemsCount (s : ResultState) : Nat :=
  s.affected

/-- Result::getAutoIncrementValue.  Modelled from the spec: an outcome scalar
that does not apply to the current command yields a defined no-value sentinel
rather than an error (spec section 4.4); the sentinel is 0. -/
def getAutoIncrementValue (s : ResultState) : Nat :=
  s.autoInc.getD 0

/-- Result::getDocumentId.  Modelled from the spec: returns the identifier of
a single added document; per the spec section 8 example, when no document was
added it reports InvalidState (not applicable). -/
def getDocumentId (s : ResultState) : Except Err String :=
  match s.docIds with
  | [] => .error .invalidState
  | d :: _ => .ok d

/-- Result::getDocumentIds.  Modelled from the spec: the list of generated
document identifiers; the empty list is the no-value sentinel. -/
def getDocumentIds (s : ResultState) : List String :=
  s.docIds

/-- SqlResult::hasData: whether the current result carries row data; false on
a default-constructed Result (spec section 8, property 5). -/
def hasData (s : ResultState) : Bool :=
  match s.results with
  | [] => false
  | r :: _ => r.hasData

/-- RowResult::fetchOne.  Modelled from the spec: returns the current row and
moves to the next one; returns a null sentinel (`none`) when no more rows are
available; reports InvalidState when the current result carries no row data or
no result is set (spec sections 4.3 and 4.4). -/
def fetchOne (s : ResultState) : Except Err (Option Row × ResultState) :=
  match s.results with
  | [] => .error .invalidState
  | r :: rest =>
    if r.hasData then
      match r.rows with
      | [] => .ok (none, s)
      | row :: more =>
        .ok (some row, { s with results := { r with rows := more } :: rest })
    else
      .error .invalidState

/-- RowResult::fetchAll.  Modelled from the spec: returns all rows not yet
delivered, draining the cursor; rows already fetched are excluded; reports
InvalidState when the current result carries no row data. -/
def fetchAll (s : ResultState) : Except Err (List Row × ResultState) :=
  match s.results with
  | [] => .error .invalidState
  | r :: rest =>
    if r.hasData then
      .ok (r.rows, { s with results := { r with rows := ([] : List Row) } :: rest })
    else
      .error .invalidState

/-- RowResult::count.  Modelled from the spec: the number of rows not yet
fetched and still available in the current result. -/
def count (s : ResultState) : Except Err Nat :=
  match s.results with
  | [] => .error .invalidState
  | r :: _ =>
    if r.hasData then
      .ok r.rows.length
    else
      .error .invalidState

/-- RowResult::getColumnCount.  Modelled from the spec: number of fields of
each row; calling it while the current result has no data is an error. -/
def getColumnCount (s : ResultState) : Except Err Nat :=
  match s.results with
  | [] => .error .invalidState
  | r :: _ =>
    if r.hasData then
      .ok r.colCount
    else
      .error .invalidState

/-- RowResult::getColumn.  Modelled from the spec: the column descriptor at
the given position (modelled by its index); OutOfRange past the column count,
InvalidState when the current result has no data. -/
def getColumn (s : ResultState) (pos : Nat) : Except Err Nat :=
  match s.results with
  | [] => .error .invalidState
  | r :: _ =>
    if r.hasData then
      if pos < r.colCount then .ok pos else .error .outOfRange
    else
      .error .invalidState

/-- One step of external iteration (RowResult::begin / iterator increment).
Modelled from the spec: iteration advances the same underlying cursor as
fetchOne and fetchAll (spec section 4.3), so an iterator step delivers exactly
what fetchOne would. -/
def iterNext (s : ResultState) : Except Err (Option Row × ResultState) :=
  fetchOne s

/-- SqlResult::nextResult.  Modelled from the spec: advances to the next
result of the sequence, discarding any rows of the current result not yet
delivered; returns true exactly when a next result exists. -/
def nextResult (s : ResultState) : Bool × ResultState :=
  match s.results with
  | [] => (false, s)
  | [_] => (false, { s with results := [] })
  | _ :: r2 :: rest => (true, { s with results := r2 :: rest })

/-- The three row-access modes of a RowResult: one-at-a-time fetch, bulk
drain, and external iteration (spec section 4.3). -/
inductive Access where
  | one
  | all
  | iter
deriving DecidableEq, Repr

/-- Perform one access of the given mode, returning the rows delivered to the
caller by that access together with the new state.  An access that reports an
error delivers nothing and leaves the state unchanged (spec section 7: the
cursor position only advances on a successful fetch). -/
def stepAccess : Access → ResultState → List Row × ResultState
  | .one, s =>
    match fetchOne s with
    | .ok (some r, s') => ([r], s')
    | .ok (none, s') => ([], s')
    | .error _ => ([], s)
  | .iter, s =>
    match iterNext s with
    | .ok (some r, s') => ([r], s')
    | .ok (none, s') => ([], s')
    | .error _ => ([], s)
  | .all, s =>
    match fetchAll s with
    | .ok (rs, s') => (rs, s')
    | .error _ => ([], s)

/-- Perform a sequence of accesses, concatenating everything delivered to the
caller in order. -/
def run : List Access → ResultState → List Row × ResultState
  | [], s => ([], s)
  | a :: rest, s =>
    let p := stepAccess a s
    let q := run rest p.2
    (p.1 ++ q.1, q.2)

/-
  Boundary model for fault normalization (claim about CATCH_AND_WRAP).

  In the source every public method of Result_common, Result, RowResult,
  SqlResult and DocResult wraps its call into the detail layer in a
  try/CATCH_AND_WRAP block.  The lower layer is modelled as raising
  heterogeneous fault kinds; the facade maps each of them, at the boundary,
  into the single Err taxonomy.
-/

/-- Modelled from the spec: heterogeneous fault kinds of the lower
(detail/handle) layer, before normalization (spec section 7: faults surfaced
by the execution or transport collaborator, logic errors, values outside the
recognized domain). -/
inductive LowErr where
  | transport (code : Nat)
  | logic (msg : String)
  | badEnum (v : Nat)
deriving DecidableEq, Repr

/-- CATCH_AND_WRAP: the single normalization of lower-layer fault kinds into
the facade's error taxonomy (spec section 7). -/
def normalize : LowErr → Err
  | .transport _ => .propagated
  | .logic _ => .invalidState
  | .badEnum _ => .protocolInconsistency

/-- The public operations of the facade variants (Result, RowResult,
SqlResult, DocResult and the shared warning accessors). -/
inductive PubOp where
  | opWarningCount
  | opWarnings
  | opWarning (pos : Nat)
  | opAffected
  | opAutoInc
  | opDocId
  | opDocIds
  | opColumnCount
  | opColumn (pos : Nat)
  | opFetchOne
  | opFetchAll
  | opCount
  | opHasData
  | opNextResult
deriving DecidableEq, Repr

/-- Uniform value type for the outcomes of the public operations. -/
inductive Outcome where
  | natVal (n : Nat)
  | boolVal (b : Bool)
  | rowVal (r : Option Row)
  | rowsVal (rs : List Row)
  | warnVal (w : Warning)
  | warnsVal (ws : List Warning)
  | strVal (v : String)
  | strsVal (vs : List String)
deriving DecidableEq, Repr

/-- Modelled from the spec: the detail-layer execution of each public
operation, raising heterogeneous LowErr faults (a logic fault where the
facade reports InvalidState or OutOfRange, a transport fault never arising in
this pure model). -/
def lowerExec : PubOp → ResultState → Except LowErr (Outcome × ResultState)
  | .opWarningCount, s => .ok (.natVal s.warnings.length, s)
  | .opWarnings, s => .ok (.warnsVal s.warnings, s)
  | .opWarning pos, s =>
    if h : pos < s.warnings.length then
      .ok (.warnVal (s.warnings.get ⟨pos, h⟩), s)
    else
      .error (.logic "warning index out of range")
  | .opAffected, s => .ok (.natVal s.affected, s)
  | .opAutoInc, s => .ok (.natVal (s.autoInc.getD 0), s)
  | .opDocId, s =>
    match s.docIds with
    | [] => .error (.logic "no document id")
    | d :: _ => .ok (.strVal d, s)
  | .opDocIds, s => .ok (.strsVal s.docIds, s)
  | .opColumnCount, s =>
    match getColumnCount s with
    | .ok n => .ok (.natVal n, s)
    | .error _ => .error (.logic "no data")
  | .opColumn pos, s =>
    match s.results with
    | [] => .error (.logic "no data")
    | r :: _ =>
      if r.hasData then
        if pos < r.colCount then
          .ok (.natVal pos, s)
        else
          .error (.logic "column index out of range")
      else
        .error (.logic "no data")
  | .opFetchOne, s =>
    match fetchOne s with
    | .ok (r, s') => .ok (.rowVal r, s')
    | .error _ => .error (.logic "no data")
  | .opFetchAll, s =>
    match fetchAll s with
    | .ok (rs, s') => .ok (.rowsVal rs, s')
    | .error _ => .error (.logic "no data")
  | .opCount, s =>
    match count s with
    | .ok n => .ok (.natVal n, s)
    | .error _ => .error (.logic "no data")
  | .opHasData, s => .ok (.boolVal (hasData s), s)
  | .opNextResult, s =>
    let p := nextResult s
    .ok (.boolVal p.1, p.2)

/-- The facade execution of a public operation: the body runs the detail
layer and the surrounding CATCH_AND_WRAP traps any lower-layer fault and
re-reports it through `normalize` (source: every public method of
Result_common, Result, RowResult, SqlResult, DocResult). -/
def facadeExec (op : PubOp) (s : ResultState) : Except Err (Outcome × ResultState) :=
  match lowerExec op s with
  | .ok v => .ok v
  | .error e => .error (normalize e)

/-- Move construction / move assignment of a Result.  Modelled from the spec:
moving transfers the whole observable state to the destination and leaves the
source in the default-constructed empty state (spec sections 3 and 5).  The
first component is the destination, the second the source after the move. -/
def moveFrom (s : ResultState) : ResultState × ResultState :=
  ({ results := s.results, warnings := s.warnings, affected := s.affected,
     autoInc := s.autoInc, docIds := s.docIds },
   ResultState.empty)

/-- typeName from the source: a switch over the declared Type enumerators
returning the enumerator's name, with a default case that throws "Unknown
type".  The enumerator list itself (RESULT_TYPE_LIST) comes from a header not
among the given sources, so the function is parametrized by the declared
(code, name) pairs; the sequential match mirrors the switch cases. -/
def typeName (decl : List (Nat × String)) (t : Nat) : Except Err String :=
  match decl with
  | [] => .error .protocolInconsistency
  | (c, n) :: rest => if t = c then .ok n else typeName rest t

/-- operator&lt;&lt;(ostream, Type) from the source: streams exactly the string
returned by typeName.  The output stream is modelled as the string written so
far. -/
def streamType (decl : List (Nat × String)) (out : String) (t : Nat) :
    Except Err String :=
  match typeName decl t with
  | .ok n => .ok (out ++ n)
  | .error e => .error e

/-
  Helper lemmas about the shared cursor.
-/

/-- One access step never invents rows: what it delivers, prepended to what
remains, is exactly what was pending before, and the result keeps its data. -/
lemma stepAccess_inv (a : Access) (s : ResultState) (h : hasData s = true) :
    hasData (stepAccess a s).2 = true ∧
    (stepAccess a s).1 ++ currentRows (stepAccess a s).2 = currentRows s := by
  obtain ⟨results, w, aff, ai, di⟩ := s
  cases results with
  | nil => simp [hasData] at h
  | cons r rest =>
    obtain ⟨hd, rows, cc⟩ := r
    simp only [hasData] at h
    subst h
    cases a <;> cases rows <;>
      simp [stepAccess, fetchOne, iterNext, fetchAll, hasData, currentRows]

/-- Running any interleaving of the three access modes delivers a prefix of
the pending rows: delivered rows, followed by the rows still pending, equal
the rows pending at the start. -/
lemma run_inv (ops : List Access) (s : ResultState) (h : hasData s = true) :
    hasData (run ops s).2 = true ∧
    (run ops s).1 ++ currentRows (run ops s).2 = currentRows s := by
  induction ops generalizing s with
  | nil => exact ⟨by simpa [run] using h, by simp [run]⟩
  | cons a rest ih =>
    obtain ⟨h1, h2⟩ := stepAccess_inv a s h
    obtain ⟨h3, h4⟩ := ih (stepAccess a s).2 h1
    refine ⟨by simpa [run] using h3, ?_⟩
    simp only [run]
    rw [List.append_assoc, h4, h2]

/-- On a data-bearing result with no pending rows, fetchAll returns the empty
sequence and leaves the state unchanged. -/
lemma fetchAll_exhausted (s : ResultState) (h : hasData s = true)
    (he : currentRows s = []) :
    fetchAll s = .ok ([], s) := by
  obtain ⟨results, w, aff, ai, di⟩ := s
  cases results with
  | nil => simp [hasData] at h
  | cons r rest =>
    obtain ⟨hd, rows, cc⟩ := r
    simp only [hasData] at h
    simp only [currentRows] at he
    subst h
    subst he
    simp [fetchAll]

/-- On a data-bearing result, count reports exactly the number of pending
rows. -/
lemma count_eq_pending (s : ResultState) (h : hasData s = true) :
    count s = .ok (currentRows s).length := by
  obtain ⟨results, w, aff, ai, di⟩ := s
  cases results with
  | nil => simp [hasData] at h
  | cons r rest =>
    obtain ⟨hd, rows, cc⟩ := r
    simp only [hasData] at h
    subst h
    simp [count, currentRows]

/-- Sample data-bearing result with three one-field rows. -/
def sampleRows : ResultState :=
  { results := [⟨true, [[1], [2], [3]], 1⟩], warnings := [], affected := 0,
    autoInc := none, docIds := [] }

/-- Sample interleaving of the three access modes. -/
def sampleOps : List Access := [.one, .iter, .all]

/-- C1: for every row (or document) result and every interleaving of
fetchOne, fetchAll and iteration — all three acting on the one shared cursor
state — the rows delivered across the whole run, followed by the rows still
pending, are exactly the server-emitted row list, so each row is delivered at
most once and in order; when the run consumed everything, all N rows were
observed and a subsequent fetchAll returns the empty sequence. -/
theorem claim1_rows_delivered_once_in_order (s : ResultState) (ops : List Access)
    (h : hasData s = true) :
    (run ops s).1 ++ currentRows (run ops s).2 = currentRows s ∧
    (currentRows (run ops s).2 = [] →
      (run ops s).1 = currentRows s ∧
      fetchAll (run ops s).2 = .ok ([], (run ops s).2)) := by
  obtain ⟨h1, h2⟩ := run_inv ops s h
  refine ⟨h2, fun he => ⟨?_, fetchAll_exhausted _ h1 he⟩⟩
  rw [← h2, he, List.append_nil]

/-- Witness for C1 on a concrete three-row result and a concrete
interleaving. -/
theorem claim1_witness :
    hasData sampleRows = true ∧
    ((run sampleOps sampleRows).1 ++ currentRows (run sampleOps sampleRows).2 =
        currentRows sampleRows ∧
      (currentRows (run sampleOps sampleRows).2 = [] →
        (run sampleOps sampleRows).1 = currentRows sampleRows ∧
        fetchAll (run sampleOps sampleRows).2 =
          .ok ([], (run sampleOps sampleRows).2))) :=
  ⟨rfl, claim1_rows_delivered_once_in_order sampleRows sampleOps rfl⟩

/-- Sample single access used by the C2 witness. -/
def sampleOpsOne : List Access := [.one]

/-- C2: on a data-bearing result, count before any fetch reports the total
number of pending rows, and after any interleaving has consumed k rows it
reports total minus k — always the rows not yet fetched. -/
theorem claim2_count_tracks_consumption (s : ResultState) (ops : List Access)
    (h : hasData s = true) :
    count s = .ok (currentRows s).length ∧
    count (run ops s).2 =
      .ok ((currentRows s).length - (run ops s).1.length) := by
  obtain ⟨h1, h2⟩ := run_inv ops s h
  refine ⟨count_eq_pending s h, ?_⟩
  rw [count_eq_pending _ h1]
  have hlen := congrArg List.length h2
  simp only [List.length_append] at hlen
  congr 1
  omega

/-- Witness for C2: consuming one of three rows leaves a count of two. -/
theorem claim2_witness :
    hasData sampleRows = true ∧
    (count sampleRows = .ok (currentRows sampleRows).length ∧
      count (run sampleOpsOne sampleRows).2 =
        .ok ((currentRows sampleRows).length - (run sampleOpsOne sampleRows).1.length)) :=
  ⟨rfl, claim2_count_tracks_consumption sampleRows sampleOpsOne rfl⟩

/-- Sample two-result sequence: a partially consumed first result followed by
a data-bearing second result. -/
def sampleMulti : ResultState :=
  { results := [⟨true, [[9]], 1⟩, ⟨true, [[4], [5]], 1⟩], warnings := [],
    affected := 0, autoInc := none, docIds := [] }

/-- C3: nextResult reports true exactly when a result follows the current one
(false once the sequence is exhausted, including on an empty Result), it drops
the current result with whatever undelivered rows it still held, and after a
successful advance the next result is current with all of its rows available
from the start — count sees them all and fetchAll delivers them all. -/
theorem claim3_nextResult_advances (s t : ResultState) (r1 r2 : ResData)
    (rest : List ResData) (h : s.results = r1 :: r2 :: rest)
    (hd : r2.hasData = true) :
    ((nextResult t).1 = true ↔ t.results.tail ≠ []) ∧
    (nextResult t).2.results = t.results.tail ∧
    (nextResult s).1 = true ∧
    (nextResult s).2.results = r2 :: rest ∧
    count (nextResult s).2 = .ok r2.rows.length ∧
    fetchAll (nextResult s).2 =
      .ok (r2.rows,
        { (nextResult s).2 with
            results := { r2 with rows := ([] : List Row) } :: rest }) := by
  have hgen : ∀ u : ResultState,
      ((nextResult u).1 = true ↔ u.results.tail ≠ []) ∧
      (nextResult u).2.results = u.results.tail := by
    intro u
    obtain ⟨ures, w, aff, ai, di⟩ := u
    match ures with
    | [] => simp [nextResult]
    | [x] => simp [nextResult]
    | x :: y :: us => simp [nextResult]
  obtain ⟨hres, w, aff, ai, di⟩ := s
  simp only at h
  subst h
  obtain ⟨hd2, rows2, cc2⟩ := r2
  simp only at hd
  subst hd
  exact ⟨(hgen t).1, (hgen t).2, rfl, rfl, rfl, rfl⟩

/-- Witness for C3 on a concrete two-result sequence with an undelivered row
in the first result. -/
theorem claim3_witness :
    sampleMulti.results = ⟨true, [[9]], 1⟩ :: (⟨true, [[4], [5]], 1⟩ : ResData) :: [] ∧
    (ResData.hasData ⟨true, [[4], [5]], 1⟩ = true) ∧
    (((nextResult sampleMulti).1 = true ↔ sampleMulti.results.tail ≠ []) ∧
      (nextResult sampleMulti).2.results = sampleMulti.results.tail ∧
      (nextResult sampleMulti).1 = true ∧
      (nextResult sampleMulti).2.results = (⟨true, [[4], [5]], 1⟩ : ResData) :: [] ∧
      count (nextResult sampleMulti).2 =
        .ok (ResData.rows ⟨true, [[4], [5]], 1⟩).length ∧
      fetchAll (nextResult sampleMulti).2 =
        .ok (ResData.rows ⟨true, [[4], [5]], 1⟩,
          { (nextResult sampleMulti).2 with
              results := (⟨true, ([] : List Row), 1⟩ : ResData) :: [] })) :=
  ⟨rfl, rfl,
    claim3_nextResult_advances sampleMulti sampleMulti
      ⟨true, [[9]], 1⟩ ⟨true, [[4], [5]], 1⟩ [] rfl rfl⟩

/-- Sample state whose current result carries no row data (an UPDATE-style
result inside an SqlResult sequence). -/
def sampleNoData : ResultState :=
  { results := [⟨false, [], 0⟩], warnings := [], affected := 2,
    autoInc := none, docIds := [] }

/-- C4: when the current result carries no row data (hasData is false, also
on a default-constructed Result), every row-access operation — fetchOne,
fetchAll, count, getColumnCount, getColumn, iteration — reports InvalidState
rather than acting as a silent empty cursor. -/
theorem claim4_no_data_invalid_state (s : ResultState) (h : hasData s = false) :
    fetchOne s = .error .invalidState ∧
    fetchAll s = .error .invalidState ∧
    count s = .error .invalidState ∧
    getColumnCount s = .error .invalidState ∧
    (∀ pos, getColumn s pos = .error .invalidState) ∧
    iterNext s = .error .invalidState := by
  obtain ⟨results, w, aff, ai, di⟩ := s
  cases results with
  | nil =>
    exact ⟨rfl, rfl, rfl, rfl, fun _ => rfl, rfl⟩
  | cons r rest =>
    obtain ⟨hd, rows, cc⟩ := r
    simp only [hasData] at h
    subst h
    exact ⟨rfl, rfl, rfl, rfl, fun _ => rfl, rfl⟩

/-- Witness for C4 on a concrete data-less result. -/
theorem claim4_witness :
    hasData sampleNoData = false ∧
    (fetchOne sampleNoData = .error .invalidState ∧
      fetchAll sampleNoData = .error .invalidState ∧
      count sampleNoData = .error .invalidState ∧
      getColumnCount sampleNoData = .error .invalidState ∧
      (∀ pos, getColumn sampleNoData pos = .error .invalidState) ∧
      iterNext sampleNoData = .error .invalidState) :=
  ⟨rfl, claim4_no_data_invalid_state sampleNoData rfl⟩

/-- C5: every public facade operation traps whatever fault the lower
detail/handle layer raises and re-reports it as the normalized taxonomy: a
successful lower call is passed through unchanged (nothing swallowed), every
lower fault surfaces as exactly its normalized counterpart, and every error
the facade reports is the normalization of an actual lower fault — no
heterogeneous lower-layer fault type escapes. -/
theorem claim5_faults_normalized (op : PubOp) (s : ResultState) :
    (∀ v, facadeExec op s = .ok v ↔ lowerExec op s = .ok v) ∧
    (∀ e, lowerExec op s = .error e → facadeExec op s = .error (normalize e)) ∧
    (∀ er, facadeExec op s = .error er →
      ∃ e, lowerExec op s = .error e ∧ er = normalize e) := by
  cases hl : lowerExec op s with
  | ok v => simp [facadeExec, hl]
  | error e => simp [facadeExec, hl]

/-- C6: moving a Result hands the destination exactly the observable state
the source had before the move — same results, warnings, remaining row count
and cursor position — and leaves the source in the default-constructed empty
state, where warnings are zero, no data is reported and row accessors report
InvalidState. -/
theorem claim6_move_transfers_state (s : ResultState) :
    (moveFrom s).1 = s ∧
    getWarningCount (moveFrom s).1 = getWarningCount s ∧
    getWarnings (moveFrom s).1 = getWarnings s ∧
    count (moveFrom s).1 = count s ∧
    currentRows (moveFrom s).1 = currentRows s ∧
    hasData (moveFrom s).1 = hasData s ∧
    (moveFrom s).2 = ResultState.empty ∧
    getWarningCount (moveFrom s).2 = 0 ∧
    hasData (moveFrom s).2 = false ∧
    getAffectedItemsCount (moveFrom s).2 = 0 ∧
    fetchOne (moveFrom s).2 = .error .invalidState ∧
    fetchAll (moveFrom s).2 = .error .invalidState ∧
    count (moveFrom s).2 = .error .invalidState :=
  ⟨rfl, rfl, rfl, rfl, rfl, rfl, rfl, rfl, rfl, rfl, rfl, rfl, rfl⟩

/-- C7: a default-constructed Result is a valid inert value: zero warnings,
no data, zero affected items, and every row accessor (fetchOne, fetchAll,
count, getColumnCount, getColumn, iteration) reports InvalidState rather than
crashing. -/
theorem claim7_default_result_inert :
    getWarningCount ResultState.empty = 0 ∧
    hasData ResultState.empty = false ∧
    getAffectedItemsCount ResultState.empty = 0 ∧
    fetchOne ResultState.empty = .error .invalidState ∧
    fetchAll ResultState.empty = .error .invalidState ∧
    count ResultState.empty = .error .invalidState ∧
    getColumnCount ResultState.empty = .error .invalidState ∧
    (∀ pos, getColumn ResultState.empty pos = .error .invalidState) ∧
    iterNext ResultState.empty = .error .invalidState :=
  ⟨rfl, rfl, rfl, rfl, rfl, rfl, rfl, fun _ => rfl, rfl⟩

/-- Sample two-row result used by the C8 witness. -/
def samplePair : ResultState :=
  { results := [⟨true, [[6], [8]], 1⟩], warnings := [], affected := 0,
    autoInc := none, docIds := [] }

/-- C8: on a result with an active data-bearing cursor, fetchOne returns the
current row and advances the cursor past it; once no rows remain it returns
the null sentinel — not an error — and the cursor stays in the exhausted
state. -/
theorem claim8_fetchOne_advances (s : ResultState) (r : ResData)
    (rest : List ResData) (h : s.results = r :: rest) (hd : r.hasData = true) :
    (∀ row more, r.rows = row :: more →
      fetchOne s =
        .ok (some row, { s with results := { r with rows := more } :: rest })) ∧
    (r.rows = [] → fetchOne s = .ok (none, s)) := by
  obtain ⟨res, w, aff, ai, di⟩ := s
  simp only at h
  subst h
  obtain ⟨hdta, rows, cc⟩ := r
  simp only at hd
  subst hd
  constructor
  · intro row more hr
    simp only at hr
    subst hr
    rfl
  · intro hr
    simp only at hr
    subst hr
    rfl

/-- Witness for C8 on a concrete two-row result. -/
theorem claim8_witness :
    samplePair.results = (⟨true, [[6], [8]], 1⟩ : ResData) :: [] ∧
    (ResData.hasData ⟨true, [[6], [8]], 1⟩ = true) ∧
    ((∀ row more, (ResData.rows ⟨true, [[6], [8]], 1⟩) = row :: more →
        fetchOne samplePair =
          .ok (some row,
            { samplePair with
                results := ({ (⟨true, [[6], [8]], 1⟩ : ResData) with rows := more }) :: [] })) ∧
      ((ResData.rows ⟨true, [[6], [8]], 1⟩) = [] →
        fetchOne samplePair = .ok (none, samplePair))) :=
  ⟨rfl, rfl,
    claim8_fetchOne_advances samplePair ⟨true, [[6], [8]], 1⟩ [] rfl rfl⟩

/-- Sample pure-SELECT result: row data present, but no generated document
id, no auto-increment value, nothing affected. -/
def selectState : ResultState :=
  { results := [⟨true, [[7]], 1⟩], warnings := [], affected := 0,
    autoInc := none, docIds := [] }

/-- C9 counterexample: the claim says every outcome-scalar accessor,
getDocumentId included, returns a no-value sentinel and does not raise an
error when it does not apply; but on a pure SELECT result getDocumentId
reports InvalidState, as the spec section 8 example itself states. -/
theorem claim9_counterexample :
    selectState.docIds = [] ∧
    getDocumentId selectState = .error .invalidState :=
  ⟨rfl, rfl⟩

/-- C9 as amended: on a command to which they do not apply, the
value-returning outcome scalars getAutoIncrementValue, getDocumentIds and
getAffectedItemsCount yield defined no-value sentinels (0, the empty list, 0)
without raising an error, while getDocumentId — whose result cannot encode
absence — reports InvalidState. -/
theorem claim9_amended_sentinels (s : ResultState) (hai : s.autoInc = none)
    (hdi : s.docIds = []) (haf : s.affected = 0) :
    getAutoIncrementValue s = 0 ∧
    getDocumentIds s = [] ∧
    getAffectedItemsCount s = 0 ∧
    getDocumentId s = .error .invalidState := by
  refine ⟨?_, hdi, haf, ?_⟩
  · simp [getAutoIncrementValue, hai]
  · simp [getDocumentId, hdi]

/-- Witness for the amended C9 on the concrete pure-SELECT result. -/
theorem claim9_witness :
    selectState.autoInc = none ∧ selectState.docIds = [] ∧
    selectState.affected = 0 ∧
    (getAutoIncrementValue selectState = 0 ∧
      getDocumentIds selectState = [] ∧
      getAffectedItemsCount selectState = 0 ∧
      getDocumentId selectState = .error .invalidState) :=
  ⟨rfl, rfl, rfl, claim9_amended_sentinels selectState rfl rfl rfl⟩

/-- Sample declared enumerator list used by the C10 witness (the actual
RESULT_TYPE_LIST is in a header outside the given sources; any list with
distinct codes fits the switch). -/
def typeDecl : List (Nat × String) :=
  [(0, "BIT"), (1, "TINYINT"), (19, "GEOMETRY")]

/-- C10: typeName raises an error exactly when its argument is not one of the
declared Type enumerators (the codes being distinct, as switch case labels
must be); for every declared enumerator it returns that enumerator's name;
and streaming a Type writes exactly that name to the stream. -/
theorem claim10_typeName_total_on_enum (decl : List (Nat × String)) (t : Nat)
    (hnd : (decl.map Prod.fst).Nodup) :
    (typeName decl t = .error .protocolInconsistency ↔ t ∉ decl.map Prod.fst) ∧
    (∀ c n, (c, n) ∈ decl → typeName decl c = .ok n) ∧
    (∀ out n, typeName decl t = .ok n → streamType decl out t = .ok (out ++ n)) := by
  refine ⟨?_, ?_, ?_⟩
  · clear hnd
    induction decl with
    | nil => simp [typeName]
    | cons p rest ih =>
      obtain ⟨c, n⟩ := p
      by_cases hc : t = c
      · subst hc
        simp [typeName]
      · simp [typeName, hc, ih]
  · induction decl with
    | nil => simp
    | cons p rest ih =>
      obtain ⟨c0, n0⟩ := p
      simp only [List.map_cons, List.nodup_cons] at hnd
      intro c n hmem
      rcases List.mem_cons.mp hmem with heq | htl
      · rw [Prod.mk.injEq] at heq
        obtain ⟨hc, hn⟩ := heq
        subst hc
        subst hn
        simp [typeName]
      · have hcne : c ≠ c0 := by
          intro hcc
          subst hcc
          exact hnd.1 (List.mem_map.mpr ⟨(c, n), htl, rfl⟩)
        simp only [typeName, if_neg hcne]
        exact ih hnd.2 c n htl
  · intro out n h
    simp [streamType, h]

/-- Witness for C10 on a concrete enumerator list, with an argument that is
not a declared code. -/
theorem claim10_witness :
    (typeDecl.map Prod.fst).Nodup ∧
    ((typeName typeDecl 7 = .error .protocolInconsistency ↔
        7 ∉ typeDecl.map Prod.fst) ∧
      (∀ c n, (c, n) ∈ typeDecl → typeName typeDecl c = .ok n) ∧
      (∀ out n, typeName typeDecl 7 = .ok n →
        streamType typeDecl out 7 = .ok (out ++ n))) :=
  ⟨by decide, claim10_typeName_total_on_enum typeDecl 7 (by decide)⟩

end MysqlxResult
